import Mathlib

/-!
Verification development for the record-storage engine of the Data-Tree
repository (src/memory_manager.py, src/test_performance.py,
src/performance_metrics.py), as a shallow embedding in Lean 4.

Python/SQLite values are modelled explicitly: `Value.null` stands both for
Python `None` and for SQL NULL (sqlite3 maps one to the other in both
directions). Tables are lists of rows; the rowid of a fresh row is
one larger than the largest rowid currently in use, as documented for
SQLite rowid tables, and `INSERT OR REPLACE` deletes every row that
conflicts on the unique `name` column and inserts the new row.
-/

namespace MemoryManager

/-- Scalar value as seen through the sqlite3 Python binding: `null` models
both Python `None` and SQL NULL; integers and text cover the column types
of the `biographies` schema. -/
inductive Value where
  | null : Value
  | int : Int → Value
  | text : String → Value
deriving DecidableEq, Repr

/-- Result of `data.get(...)` for the nine non-key columns of a record, in
schema order. Python field maps collapse "key absent" and "key present with
value None" to `None` via `dict.get`, so both appear here as `Value.null`. -/
structure Fields where
  birth_year : Value := .null
  birth_place : Value := .null
  death_year : Value := .null
  death_place : Value := .null
  occupation : Value := .null
  achievement : Value := .null
  education : Value := .null
  nationality : Value := .null
  known_for : Value := .null
deriving DecidableEq, Repr

/-- Record passed to `batch_store`: the `name` key plus the field map. -/
structure Person where
  name : String
  fields : Fields
deriving DecidableEq, Repr

/-- Row of the `biographies` table: the implicit SQLite rowid, the NOT NULL
UNIQUE `name` column, and the nine optional columns. -/
structure Row where
  rowid : Int
  name : String
  fields : Fields
deriving DecidableEq, Repr

abbrev Table := List Row

def mkRow (r : Int) (p : Person) : Row := ⟨r, p.name, p.fields⟩

/-- Largest rowid currently in use (0 for an empty table). -/
def maxRowid (st : Table) : Int := st.foldl (fun a r => max a r.rowid) 0

/-- The `valid_columns` set of `retrieve` (memory_manager.py lines 125-128). -/
def valid_columns : List String :=
  ["name", "birth_year", "birth_place", "death_year", "death_place",
   "occupation", "achievement", "education", "nationality", "known_for"]

/-- Value of a named column for a row with key `name` and fields `fs`
(defaults to null for strings outside `valid_columns`; `retrieve` never
reaches that case because it checks the column set first). -/
def colValue (name : String) (fs : Fields) (field : String) : Value :=
  if field = "name" then .text name
  else if field = "birth_year" then fs.birth_year
  else if field = "birth_place" then fs.birth_place
  else if field = "death_year" then fs.death_year
  else if field = "death_place" then fs.death_place
  else if field = "occupation" then fs.occupation
  else if field = "achievement" then fs.achievement
  else if field = "education" then fs.education
  else if field = "nationality" then fs.nationality
  else if field = "known_for" then fs.known_for
  else .null

def getField (r : Row) (field : String) : Value := colValue r.name r.fields field

/-- One `INSERT OR REPLACE INTO biographies ...` execution: the fresh rowid
is allocated as max-in-use + 1, rows conflicting on the unique `name`
column are deleted, and the new row is inserted. Returns the new table and
the connection's `last_insert_rowid()`. -/
def insertOrReplace (st : Table) (p : Person) : Table × Int :=
  let r := maxRowid st + 1
  (st.filter (fun row => row.name ≠ p.name) ++ [mkRow r p], r)

/-- The `store` method (memory_manager.py lines 93-121): raises ValueError
for an empty key ("not name or not isinstance(name, str)"), otherwise one
committed INSERT OR REPLACE built from `data.get(...)` on every column. -/
def store (st : Table) (name : String) (data : Fields) : Except String Table :=
  if name = "" then .error "Name must be a non-empty string"
  else .ok (insertOrReplace st ⟨name, data⟩).1

/-- The `retrieve` method (memory_manager.py lines 123-142), instrumented
with the number of engine queries issued (the second component): an invalid
field name returns early with None before `get_connection` is reached, so no
query is issued; otherwise one SELECT runs and the fetched cell (or None
when no row matches) is returned. -/
def retrieveT (st : Table) (name field : String) : Value × Nat :=
  if field ∉ valid_columns then (.null, 0)
  else
    match st.find? (fun r => r.name = name) with
    | some r => (getField r field, 1)
    | none => (.null, 1)

/-- Value returned by `retrieve` (the Python return value; `Value.null` is
Python `None`). -/
def retrieve (st : Table) (name field : String) : Value :=
  (retrieveT st name field).1

/-- Engine-level failures that the `try`/`except` of `retrieve` can catch:
a lock-wait timeout (sqlite3.OperationalError "database is locked"), an
I/O failure, or any other exception. -/
inductive EngineErr where
  | busy : EngineErr
  | ioFailure : EngineErr
  | other : EngineErr
deriving DecidableEq, Repr

/-- Result of the SELECT issued by `retrieve`: the selected cell of the
first matching row, if any. -/
def queryField (st : Table) (name field : String) : Option Value :=
  (st.find? (fun r => r.name = name)).map (fun r => getField r field)

/-- The `retrieve` method with the engine interaction abstracted: `outcome`
is what `cursor.execute`/`fetchone` produced — either an engine exception
(caught by the bare `except Exception`, which logs and returns None) or the
optional fetched cell. -/
def retrieveWith (field : String) (outcome : Except EngineErr (Option Value)) : Value :=
  if field ∉ valid_columns then .null
  else
    match outcome with
    | .error _ => .null
    | .ok none => .null
    | .ok (some v) => v

/-- Sequential `cursor.executemany` of INSERT OR REPLACE (memory_manager.py
lines 151-157). Also returns the rowid assigned to each record, in input
order (ghost instrumentation; the code itself only reads the last one via
`last_insert_rowid()`). -/
def execMany (st : Table) : List Person → Table × List Int
  | [] => (st, [])
  | p :: ps =>
    let (st2, r) := insertOrReplace st p
    let (st3, rs) := execMany st2 ps
    (st3, r :: rs)

/-- The `batch_store` method (memory_manager.py lines 144-170): executemany
of INSERT OR REPLACE over all records (no validation, no chunking — the
method has no batch_size parameter), then returns
`list(range(last_insert_rowid - len(records) + 1, last_insert_rowid + 1))`.
With no insert executed (empty input) the range is empty whatever
`last_insert_rowid()` reports, so the empty case returns `[]`. -/
def batch_store (st : Table) (records : List Person) : List Int × Table :=
  let (st2, assigned) := execMany st records
  match assigned.getLast? with
  | none => ([], st2)
  | some last =>
    ((List.range records.length).map
      (fun (i : Nat) => last - (records.length : Int) + 1 + (i : Int)), st2)

/-- The `get_all_people` method (memory_manager.py lines 187-196): SELECT *
over the table. -/
def get_all_people (st : Table) : List Row := st

/-! Connection-manager layer: `self.connections` is a Python dict from
`threading.get_ident()` to sqlite3 connections, inserted into only by
`get_connection`. A connection records, in order, the PRAGMA statements that
were executed on it (sqlite3.connect itself executes none). -/

/-- The `OPTIMIZATION_PRAGMAS` class attribute (memory_manager.py
lines 24-30), in source order. -/
def OPTIMIZATION_PRAGMAS : List String :=
  ["PRAGMA journal_mode=WAL",
   "PRAGMA synchronous=NORMAL",
   "PRAGMA cache_size=10000",
   "PRAGMA temp_store=MEMORY",
   "PRAGMA mmap_size=30000000000"]

/-- Per-thread sqlite3 connection; `pragmas` lists the PRAGMA statements
executed on this connection so far, in execution order. -/
structure Conn where
  pragmas : List String
deriving DecidableEq, Repr

/-- State of a `BiographicalMemory` object: the thread-id-to-connection
dict (as an insertion-ordered association list, like a Python dict) and the
committed `biographies` table in the backing file. -/
structure Memory where
  connections : List (Nat × Conn)
  table : Table
deriving DecidableEq, Repr

def lookupConn : List (Nat × Conn) → Nat → Option Conn
  | [], _ => none
  | (t2, c) :: rest, t => if t2 = t then some c else lookupConn rest t

/-- The `get_connection` method (memory_manager.py lines 83-91), run by
thread `t`: return the thread's cached connection, or open a fresh one
(`sqlite3.connect` — no pragmas applied here) and cache it. -/
def get_connection (m : Memory) (t : Nat) : Conn × Memory :=
  match lookupConn m.connections t with
  | some c => (c, m)
  | none =>
    let c : Conn := ⟨[]⟩
    (c, { m with connections := m.connections ++ [(t, c)] })

/-- Execute a list of PRAGMA statements on thread `t`'s cached connection
(the pragma loop of `_initialize_db`). -/
def applyPragmas (m : Memory) (t : Nat) (ps : List String) : Memory :=
  { m with connections :=
      m.connections.map (fun tc =>
        if tc.1 = t then (tc.1, ⟨tc.2.pragmas ++ ps⟩) else tc) }

/-- Construction of a `BiographicalMemory` on thread `t0` (memory_manager.py
lines 32-71): start with an empty connection dict, let `_initialize_db` call
`get_connection`, run the OPTIMIZATION_PRAGMAS loop on that connection, and
create the (initially empty) table and index. -/
def initMemory (t0 : Nat) : Memory :=
  let m0 : Memory := ⟨[], []⟩
  let (_, m1) := get_connection m0 t0
  applyPragmas m1 t0 OPTIMIZATION_PRAGMAS

/-- The `store` method at object level, run by thread `t`: validation
happens before `get_connection`, so a ValueError leaves the object
untouched; otherwise the calling thread's connection is acquired (possibly
created) and the row is written and committed. -/
def storeM (m : Memory) (t : Nat) (name : String) (data : Fields) :
    Except String Unit × Memory :=
  if name = "" then (.error "Name must be a non-empty string", m)
  else
    let (_, m1) := get_connection m t
    (.ok (), { m1 with table := (insertOrReplace m1.table ⟨name, data⟩).1 })

/-- The `retrieve` method at object level, run by thread `t`. -/
def retrieveM (m : Memory) (t : Nat) (name field : String) : Value × Memory :=
  if field ∉ valid_columns then (.null, m)
  else
    let (_, m1) := get_connection m t
    (retrieve m1.table name field, m1)

/-- The `batch_store` method at object level, run by thread `t`. -/
def batchStoreM (m : Memory) (t : Nat) (records : List Person) :
    List Int × Memory :=
  let (_, m1) := get_connection m t
  let (ids, tbl) := batch_store m1.table records
  (ids, { m1 with table := tbl })

/-- The `close` method (memory_manager.py lines 228-234): close every
tracked connection and clear the dict. -/
def closeM (m : Memory) : Memory := { m with connections := [] }

end MemoryManager

namespace TestPerf

/-!
The rewritten `BiographicalMemory` variant defined inside
src/test_performance.py (lines 27-256), which shadows the import from
memory_manager.py. Only `batch_store` differs materially from the
memory_manager.py variant: it pre-validates every record's name, chunks the
input by `batch_size`, uses plain INSERT (not OR REPLACE) inside a single
`with conn:` transaction that rolls back wholly on any exception, and
collects rowids per chunk with `SELECT rowid FROM biographies WHERE name IN
(...)`. The row order produced by that SELECT is not specified by SQLite;
it is modelled here as table (insertion) order.
-/

open MemoryManager

/-- Whitespace characters stripped by Python `str.strip()` (ASCII range). -/
def isPySpace (c : Char) : Bool :=
  c = ' ' ∨ c = '\t' ∨ c = '\n' ∨ c = '\r' ∨ c = '\x0b' ∨ c = '\x0c'

/-- Python `str.strip()`: drop leading and trailing whitespace. -/
def pyStrip (s : String) : String :=
  ⟨((s.data.dropWhile isPySpace).reverse.dropWhile isPySpace).reverse⟩

/-- Validation applied to one record (test_performance.py lines 169-171):
the record must have a 'name' key holding a string that is non-empty after
`strip()`. With records modelled as `Person` the key is always a present
string, so only the emptiness check remains. -/
def validRecord (p : Person) : Bool := pyStrip p.name ≠ ""

/-- Chunking loop `for i in range(0, len(records), batch_size)` with
`records[i:i+batch_size]`. Defined for positive `batch_size` (Python's
`range` raises ValueError on step 0; callers use the default 1000). -/
def chunks (size : Nat) (l : List Person) : List (List Person) :=
  if h : l = [] ∨ size = 0 then []
  else
    have hs : size ≠ 0 := fun hz => h (Or.inr hz)
    have hl : l ≠ [] := fun hz => h (Or.inl hz)
    have : l.length - size < l.length := by
      rcases l with _ | ⟨a, l⟩
      · exact absurd rfl hl
      · simp only [List.length_cons]
        omega
    l.take size :: chunks size (l.drop size)
termination_by l.length
decreasing_by simpa [List.length_drop] using this

/-- Plain `INSERT INTO biographies` of one record: raises
sqlite3.IntegrityError when the unique `name` column already holds this
name, otherwise appends a fresh row with rowid max-in-use + 1. -/
def insertFresh (st : Table) (p : Person) : Except String Table :=
  if st.any (fun r => r.name = p.name) then
    .error "UNIQUE constraint failed: biographies.name"
  else .ok (st ++ [mkRow (maxRowid st + 1) p])

def insertManyFresh (st : Table) : List Person → Except String Table
  | [] => .ok st
  | p :: ps => do
    let st2 ← insertFresh st p
    insertManyFresh st2 ps

/-- Rowids returned by `SELECT rowid FROM biographies WHERE name IN
(chunk names)`, modelled in table order. -/
def selectRowids (st : Table) (names : List String) : List Int :=
  (st.filter (fun r => names.contains r.name)).map (fun r => r.rowid)

/-- Body of the `with conn:` transaction: per chunk, executemany plain
INSERT then collect the chunk's rowids. -/
def storeChunks (st : Table) (acc : List Int) :
    List (List Person) → Except String (List Int × Table)
  | [] => .ok (acc, st)
  | chunk :: rest => do
    let st2 ← insertManyFresh st chunk
    let ids := selectRowids st2 (chunk.map Person.name)
    storeChunks st2 (acc ++ ids) rest

/-- The `batch_store` method of the test_performance.py variant
(lines 155-220): empty input short-circuits to `[]`; then every record is
validated before any engine work (ValueError aborts with the table
untouched); then the chunked inserts run inside one transaction, which
rolls back completely if any insert raises. The second component of the
result is the table the caller observes afterwards. -/
def batch_store (st : Table) (records : List Person) (batch_size : Nat := 1000) :
    Except String (List Int) × Table :=
  if records = [] then (.ok [], st)
  else if records.any (fun r => ¬ validRecord r) then
    (.error "Each record must have a non-empty 'name' string", st)
  else
    match storeChunks st [] (chunks batch_size records) with
    | .ok (ids, st2) => (.ok ids, st2)
    | .error e => (.error e, st)

end TestPerf

namespace AirQuality

/-!
The `AirQualityMemory` class of src/memory_manager.py (lines 242-305).
Only `store` is needed here: a row of the `air_quality` table is modelled
as the thirteen bound values (the twelve comma-separated parts followed by
the timestamp); SQLite's type affinity never rejects a non-null text
binding, so the INSERT always succeeds once the arity check passes.
-/

/-- Row of the `air_quality` table: the 12 data columns plus timestamp, as
bound by the INSERT (`parts + [timestamp]`). -/
abbrev AQRow := List String

/-- Character-level splitter behind `splitComma`: every comma separates,
empty pieces are kept, and the empty input yields one empty piece. -/
def splitCommaChars : List Char → List String
  | [] => [""]
  | c :: cs =>
    let rest := splitCommaChars cs
    if c = ',' then "" :: rest
    else
      match rest with
      | r :: rs => (String.singleton c ++ r) :: rs
      | [] => [String.singleton c]

/-- The `data_string.split(',')` of `store`, with Python semantics: split
on every comma, keep empty pieces, and `"".split(",") == [""]`. -/
def splitComma (s : String) : List String := splitCommaChars s.data

/-- The `AirQualityMemory.store` method (memory_manager.py lines 285-305):
raise ValueError("Invalid data string format") when the comma-split of
`data_string` does not have exactly 12 parts — before any cursor is
obtained — otherwise insert and commit one row. The second component is
the table the caller observes afterwards. -/
def store (tbl : List AQRow) (data_string timestamp : String) :
    Except String Unit × List AQRow :=
  let parts := splitComma data_string
  if parts.length ≠ 12 then (.error "Invalid data string format", tbl)
  else (.ok (), tbl ++ [parts ++ [timestamp]])

end AirQuality

namespace PerfMetrics

/-!
The `PerformanceMetrics.print_comparison` method of
src/performance_metrics.py (lines 53-105), embedded as an evaluator over
the parsed JSON content of the history file. Each Python primitive used by
the method (len, negative indexing, string subscripting, iteration, zip,
subtraction/division, `:.2f` formatting) is modelled with the exception it
raises on each value shape, because the method wraps its three comparison
blocks in `except (KeyError, IndexError, ZeroDivisionError)` only — any
other exception escapes the method.
-/

/-- Parsed JSON value (`json.load` result). Numbers are modelled as
integers; only raise-or-not behaviour matters here. -/
inductive J where
  | null : J
  | num : Int → J
  | str : String → J
  | arr : List J → J
  | obj : List (String × J) → J

/-- Python exceptions that the operations in `print_comparison` can raise. -/
inductive PyExc where
  | typeError : PyExc
  | keyError : PyExc
  | indexError : PyExc
  | zeroDiv : PyExc
  | valueError : PyExc
deriving DecidableEq, Repr

abbrev PyM (α : Type) := Except PyExc α

/-- Python `len(x)`: defined for lists, strings and dicts; TypeError for
numbers and None. -/
def pyLen : J → PyM Nat
  | .arr xs => .ok xs.length
  | .str s => .ok s.length
  | .obj kvs => .ok kvs.length
  | _ => .error .typeError

/-- Python `x[-1]`: last element of a list (IndexError when empty), last
character of a string, KeyError for a dict (no key -1), TypeError else. -/
def pyLast : J → PyM J
  | .arr xs =>
    match xs.getLast? with
    | some x => .ok x
    | none => .error .indexError
  | .str s => if s.length = 0 then .error .indexError else .ok (.str (s.takeRight 1))
  | .obj _ => .error .keyError
  | _ => .error .typeError

/-- Python `x[-2]`. -/
def pyPenult : J → PyM J
  | .arr xs =>
    if h : xs.length ≥ 2 then .ok (xs.get ⟨xs.length - 2, by omega⟩)
    else .error .indexError
  | .str s =>
    if s.length ≥ 2 then .ok (.str ((s.dropRight 1).takeRight 1))
    else .error .indexError
  | .obj _ => .error .keyError
  | _ => .error .typeError

/-- Python `x['key']`: dict lookup (KeyError when missing); subscripting a
list or string with a string, or a number/None at all, is a TypeError. -/
def pyGetStr (x : J) (key : String) : PyM J :=
  match x with
  | .obj kvs =>
    match kvs.find? (fun kv => kv.1 = key) with
    | some kv => .ok kv.2
    | none => .error .keyError
  | _ => .error .typeError

/-- Python iteration (the arguments of `zip`): lists yield elements,
strings yield one-character strings, dicts yield their keys; numbers and
None are not iterable (TypeError). -/
def pyIter : J → PyM (List J)
  | .arr xs => .ok xs
  | .str s => .ok (s.toList.map (fun c => .str (String.singleton c)))
  | .obj kvs => .ok (kvs.map (fun kv => .str kv.1))
  | _ => .error .typeError

/-- Python numeric coercion for `-` and `/` operands: TypeError unless the
value is a number. -/
def pyNum : J → PyM Int
  | .num n => .ok n
  | _ => .error .typeError

/-- Python truthiness of the values that can appear here (never raises). -/
def pyTruthy : J → Bool
  | .null => false
  | .num n => n ≠ 0
  | .str s => s.length ≠ 0
  | .arr xs => ¬ xs.isEmpty
  | .obj kvs => ¬ kvs.isEmpty

/-- Formatting with `:.2f`/`:.1f`: fine for numbers, ValueError for
strings and other non-numeric values. -/
def pyFmtF : J → PyM Unit
  | .num _ => .ok ()
  | _ => .error .valueError

/-- One iteration of the insertion-rates loop (performance_metrics.py
lines 78-83): read `curr['batch_size']`, compute
`((curr['rate'] - prev['rate']) / prev['rate']) * 100`, then format
`curr['rate']` with `:.2f`. -/
def insertionStep (cp : J × J) : PyM Unit := do
  let _bs ← pyGetStr cp.1 "batch_size"
  let cr ← pyGetStr cp.1 "rate"
  let crN ← pyNum cr
  let pr ← pyGetStr cp.2 "rate"
  let prN ← pyNum pr
  if prN = 0 then .error .zeroDiv
  else do
    let _ ← pyFmtF (.num crN)
    .ok ()

/-- Body of the insertion-rates try block (lines 77-83). -/
def insertionBody (current previous : J) : PyM Unit := do
  let ci ← pyGetStr current "insertion_rates"
  let pi2 ← pyGetStr previous "insertion_rates"
  let cl ← pyIter ci
  let pl ← pyIter pi2
  (cl.zip pl).forM insertionStep

/-- One iteration of the retrieval-rates loop (lines 89-92):
`((curr - prev) / prev) * 100` with `curr` formatted `:.2f`. -/
def retrievalStep (cp : J × J) : PyM Unit := do
  let crN ← pyNum cp.1
  let prN ← pyNum cp.2
  if prN = 0 then .error .zeroDiv
  else do
    let _ ← pyFmtF (.num crN)
    .ok ()

/-- Body of the retrieval-rates try block (lines 88-92). -/
def retrievalBody (current previous : J) : PyM Unit := do
  let ci ← pyGetStr current "retrieval_rates"
  let pi2 ← pyGetStr previous "retrieval_rates"
  let cl ← pyIter ci
  let pl ← pyIter pi2
  (cl.zip pl).forM retrievalStep

/-- Body of the concurrent-rates try block (lines 97-103). -/
def concurrentBody (current previous : J) : PyM Unit := do
  let cc ← pyGetStr current "concurrent_rates"
  let pc ← pyGetStr previous "concurrent_rates"
  if pyTruthy cc ∧ pyTruthy pc then do
    let cl ← pyLast cc
    let pl ← pyLast pc
    let clN ← pyNum cl
    let plN ← pyNum pl
    if plN = 0 then .error .zeroDiv
    else do
      let _ ← pyFmtF (.num clN)
      .ok ()
  else .ok ()

/-- The `except (KeyError, IndexError, ZeroDivisionError)` wrapper around
each comparison block: those three exceptions are swallowed (a fallback
line is printed), every other exception propagates. -/
def catchKIZ (x : PyM Unit) : PyM Unit :=
  match x with
  | .error .keyError => .ok ()
  | .error .indexError => .ok ()
  | .error .zeroDiv => .ok ()
  | other => other

/-- State of the history file as `print_comparison` finds it: absent,
present but not decodable as JSON (json.JSONDecodeError), or decoded to a
JSON value. -/
inductive FileState where
  | absent : FileState
  | undecodable : FileState
  | content : J → FileState

/-- The `print_comparison` method (performance_metrics.py lines 53-105):
returns `.ok ()` when the method completes (whatever it printed), and
`.error e` when a Python exception escapes it. -/
def print_comparison : FileState → PyM Unit
  | .absent => .ok ()
  | .undecodable => .ok ()
  | .content j => do
    let n ← pyLen j
    if n < 2 then .ok ()
    else do
      let current ← pyLast j
      let previous ← pyPenult j
      catchKIZ (insertionBody current previous)
      catchKIZ (retrievalBody current previous)
      catchKIZ (concurrentBody current previous)

end PerfMetrics


/-! Helper lemmas. -/

namespace MemoryManager

/-- On a valid field, `retrieveT` reduces to the engine lookup. -/
theorem retrieveT_valid (st : Table) (name field : String) (hf : field ∈ valid_columns) :
    retrieveT st name field =
      (match st.find? (fun r => r.name = name) with
       | some r => (getField r field, 1)
       | none => (.null, 1)) := by
  unfold retrieveT
  rw [if_neg (not_not_intro hf)]

/-- After filtering out every row named `k` and appending a row named `k`,
a lookup by name `k` finds exactly the appended row. -/
theorem find_filter_append (st : Table) (k : String) (row : Row) (h : row.name = k) :
    ((st.filter fun r => r.name ≠ k) ++ [row]).find? (fun r => r.name = k) = some row := by
  induction st with
  | nil => simp [h]
  | cons a st ih =>
    by_cases ha : a.name = k
    · simpa [List.filter_cons, ha] using ih
    · simpa [List.filter_cons, ha, List.find?_cons] using ih

/-- Retrieval of any valid field right after an INSERT OR REPLACE of key
`k` sees exactly the newly written record. -/
theorem retrieve_insertOrReplace (st : Table) (k : String) (f : Fields)
    (field : String) (hf : field ∈ valid_columns) :
    retrieve (insertOrReplace st ⟨k, f⟩).1 k field = colValue k f field := by
  unfold retrieve
  rw [retrieveT_valid _ _ _ hf]
  have h1 : (insertOrReplace st ⟨k, f⟩).1 =
      st.filter (fun row => row.name ≠ k) ++ [mkRow (maxRowid st + 1) ⟨k, f⟩] := rfl
  rw [h1, find_filter_append st k (mkRow (maxRowid st + 1) ⟨k, f⟩) rfl]
  rfl

/-- Claim C1: storing the same key twice is a full-record overwrite — after
`store(k, f1); store(k, f2)`, retrieving any valid field of `k` returns
exactly the column value written from `f2` (null for fields absent from
`f2`), with no contribution from `f1`. -/
theorem c1_store_full_overwrite (st : Table) (k : String) (f1 f2 : Fields)
    (field : String) (hk : k ≠ "") (hf : field ∈ valid_columns) :
    ∃ st1 st2, store st k f1 = .ok st1 ∧ store st1 k f2 = .ok st2 ∧
      retrieve st2 k field = colValue k f2 field := by
  refine ⟨(insertOrReplace st ⟨k, f1⟩).1, (insertOrReplace (insertOrReplace st ⟨k, f1⟩).1 ⟨k, f2⟩).1,
    ?_, ?_, ?_⟩
  · unfold store
    rw [if_neg hk]
  · unfold store
    rw [if_neg hk]
  · exact retrieve_insertOrReplace _ k f2 field hf

/-- Witness for C1 at a concrete input: two stores under the key
"Ada Lovelace", then retrieval of the occupation stored second. -/
theorem c1_store_full_overwrite_witness :
    ∃ st1 st2,
      store [] "Ada Lovelace" { birth_year := .int 1815 } = .ok st1 ∧
      store st1 "Ada Lovelace" { occupation := .text "Mathematician" } = .ok st2 ∧
      retrieve st2 "Ada Lovelace" "occupation" =
        colValue "Ada Lovelace" { occupation := .text "Mathematician" } "occupation" :=
  c1_store_full_overwrite [] "Ada Lovelace" { birth_year := .int 1815 }
    { occupation := .text "Mathematician" } "occupation" (by decide) (by decide)

/-- Claim C3 counterexample: after storing a record for "Ada Lovelace" with
no death_year, `retrieve("Ada Lovelace", "death_year")` (record exists,
field null) and `retrieve("Grace Hopper", "occupation")` (no such record)
both return Python None — the code returns the bare fetched cell, not an
option wrapping it, so the claimed `Some(Null)` vs `None` distinction does
not exist in `BiographicalMemory.retrieve`. -/
theorem c3_counterexample :
    store [] "Ada Lovelace" { occupation := .text "Mathematician", birth_year := .int 1815 } =
      .ok [⟨1, "Ada Lovelace", { occupation := .text "Mathematician", birth_year := .int 1815 }⟩] ∧
    retrieve [⟨1, "Ada Lovelace", { occupation := .text "Mathematician", birth_year := .int 1815 }⟩]
      "Ada Lovelace" "death_year" = .null ∧
    retrieve [⟨1, "Ada Lovelace", { occupation := .text "Mathematician", birth_year := .int 1815 }⟩]
      "Grace Hopper" "occupation" = .null := by
  refine ⟨rfl, ?_, ?_⟩ <;> decide

/-- Claim C3 amended: `retrieve(name, field)` on a valid field returns
Python None exactly when either no record with that key exists or the
record exists and the requested cell is null; absent record and null field
map to the same return value and are not distinguishable by callers. -/
theorem c3_amended_null_collapse (st : Table) (name field : String)
    (hf : field ∈ valid_columns) :
    retrieve st name field = .null ↔
      (st.find? (fun r => r.name = name) = none ∨
       ∃ r, st.find? (fun r => r.name = name) = some r ∧ getField r field = .null) := by
  unfold retrieve
  rw [retrieveT_valid _ _ _ hf]
  cases h : st.find? (fun r => r.name = name) with
  | none => simp
  | some r => simp

/-- Witness for C3 amended at a concrete input: on the empty table every
lookup misses, and the returned value is null. -/
theorem c3_amended_null_collapse_witness :
    retrieve [] "Grace Hopper" "occupation" = .null ↔
      (([] : Table).find? (fun r => r.name = "Grace Hopper") = none ∨
       ∃ r, ([] : Table).find? (fun r => r.name = "Grace Hopper") = some r ∧
         getField r "occupation" = .null) :=
  c3_amended_null_collapse [] "Grace Hopper" "occupation" (by decide)

/-- Claim C4 counterexample: `retrieve` on an unknown field name does not
fail with a distinguishable InvalidField error — it returns Python None,
the same value a "record not found" lookup returns, so callers cannot tell
the two apart (the no-engine-query part of the claim does hold: the query
count is 0). -/
theorem c4_counterexample :
    retrieve [⟨1, "Ada Lovelace", {}⟩] "Ada Lovelace" "bogus_field" = .null ∧
    retrieve [⟨1, "Ada Lovelace", {}⟩] "Grace Hopper" "occupation" = .null ∧
    (retrieveT [⟨1, "Ada Lovelace", {}⟩] "Ada Lovelace" "bogus_field").2 = 0 := by
  decide

/-- Claim C4 amended: for every field name outside the enumerated column
set, `retrieve` returns Python None without issuing any engine query, for
every key and table state; the result is indistinguishable from a
record-not-found result (which is also None). -/
theorem c4_amended_invalid_field_none (st : Table) (name field : String)
    (hf : field ∉ valid_columns) :
    retrieveT st name field = (.null, 0) ∧
    retrieve st name field = retrieve [] name field := by
  constructor
  · unfold retrieveT
    rw [if_pos hf]
  · unfold retrieve retrieveT
    rw [if_pos hf, if_pos hf]

/-- Witness for C4 amended at a concrete input. -/
theorem c4_amended_invalid_field_none_witness :
    retrieveT [⟨1, "Ada Lovelace", {}⟩] "Ada Lovelace" "bogus_field" = (.null, 0) ∧
    retrieve [⟨1, "Ada Lovelace", {}⟩] "Ada Lovelace" "bogus_field" =
      retrieve [] "Ada Lovelace" "bogus_field" :=
  c4_amended_invalid_field_none [⟨1, "Ada Lovelace", {}⟩] "Ada Lovelace" "bogus_field"
    (by decide)

/-- Claim C9: `retrieve` never lets an engine-level failure escape — for
every valid field, an engine error during the lookup (Busy, I/O, or any
other exception) is caught and None is returned, indistinguishable from an
absent record; and on the error-free path `retrieve` agrees with this
abstracted form. -/
theorem c9_engine_error_returns_none (st : Table) (name field : String) (e : EngineErr)
    (hf : field ∈ valid_columns) :
    retrieveWith field (.error e) = .null ∧
    retrieveWith field (.ok none) = .null ∧
    retrieve st name field = retrieveWith field (.ok (queryField st name field)) := by
  refine ⟨?_, ?_, ?_⟩
  · unfold retrieveWith
    rw [if_neg (not_not_intro hf)]
  · unfold retrieveWith
    rw [if_neg (not_not_intro hf)]
  · unfold retrieve retrieveWith queryField
    rw [retrieveT_valid _ _ _ hf, if_neg (not_not_intro hf)]
    cases st.find? (fun r => r.name = name) <;> rfl

/-- Witness for C9 at a concrete input: a Busy error on a lookup of a valid
field returns null, as does a miss. -/
theorem c9_engine_error_returns_none_witness :
    retrieveWith "occupation" (.error .busy) = .null ∧
    retrieveWith "occupation" (.ok none) = .null ∧
    retrieve [] "Ada Lovelace" "occupation" =
      retrieveWith "occupation" (.ok (queryField [] "Ada Lovelace" "occupation")) :=
  c9_engine_error_returns_none [] "Ada Lovelace" "occupation" .busy (by decide)

end MemoryManager

namespace AirQuality

/-- Claim C10: `AirQualityMemory.store` raises ValueError exactly when the
comma-split of the data string does not have 12 parts, and then the table
is unchanged; with exactly 12 parts it inserts and commits exactly one row
(the 12 parts plus the timestamp). -/
theorem c10_store_arity (tbl : List AQRow) (s ts : String) :
    ((splitComma s).length ≠ 12 → store tbl s ts = (.error "Invalid data string format", tbl)) ∧
    ((splitComma s).length = 12 → store tbl s ts = (.ok (), tbl ++ [splitComma s ++ [ts]])) := by
  constructor
  · intro hne
    unfold store
    rw [if_pos hne]
  · intro he
    unfold store
    rw [if_neg (not_not_intro he)]

/-- Witness for C10 at concrete inputs: a 12-field string inserts one row;
a 3-field string raises and leaves the table unchanged. -/
theorem c10_store_arity_witness :
    store [] "a,b,2020,1,2,s1,1.0,up,2.0,3.0,4.0,daily" "2024-01-01" =
      (.ok (), [splitComma "a,b,2020,1,2,s1,1.0,up,2.0,3.0,4.0,daily" ++ ["2024-01-01"]]) ∧
    store [] "a,b,c" "2024-01-01" = (.error "Invalid data string format", []) :=
  ⟨(c10_store_arity [] "a,b,2020,1,2,s1,1.0,up,2.0,3.0,4.0,daily" "2024-01-01").2 (by decide),
   (c10_store_arity [] "a,b,c" "2024-01-01").1 (by decide)⟩

end AirQuality

namespace MemoryManager

/-- Claim C2 counterexample: `BiographicalMemory.batch_store` in
memory_manager.py does no key validation at all — a batch containing a
record whose key is the invalid empty string succeeds (SQLite's NOT NULL
accepts the empty text), returns an identifier list, and changes the
table, instead of failing with the table unchanged. -/
theorem c2_counterexample :
    (batch_store [] [⟨"", {}⟩]).1 = [1] ∧
    get_all_people (batch_store [] [⟨"", {}⟩]).2 ≠ get_all_people [] := by
  decide

end MemoryManager

namespace TestPerf

open MemoryManager

/-- Claim C2 amended: the rewritten `batch_store` of test_performance.py
(the variant the spec describes) pre-validates every record's key before
any engine work: if any record's name is empty after strip, the whole call
raises ValueError identifying the problem and the table is left exactly as
it was, with no partial writes. The memory_manager.py variant has no such
validation (see the counterexample). -/
theorem c2_amended_validate_then_fail (st : Table) (records : List Person)
    (bs : Nat) (h : records.any (fun r => ¬ validRecord r) = true) :
    TestPerf.batch_store st records bs =
      (.error "Each record must have a non-empty 'name' string", st) := by
  have hne : records ≠ [] := by
    intro he
    rw [he] at h
    simp at h
  unfold TestPerf.batch_store
  rw [if_neg hne, if_pos (by exact_mod_cast h)]

/-- Witness for C2 amended at a concrete input: a batch of one valid and
one whitespace-keyed record fails wholly, table untouched. -/
theorem c2_amended_validate_then_fail_witness :
    TestPerf.batch_store [] [⟨"Alan Turing", {}⟩, ⟨" ", {}⟩] 1000 =
      (.error "Each record must have a non-empty 'name' string", []) :=
  c2_amended_validate_then_fail [] [⟨"Alan Turing", {}⟩, ⟨" ", {}⟩] 1000 (by decide)

end TestPerf

namespace MemoryManager

/-- If a thread id is absent from the connection map, appending a fresh
entry for it makes the lookup find exactly that entry. -/
theorem lookupConn_append_of_none (l : List (Nat × Conn)) (t : Nat) (c : Conn)
    (h : lookupConn l t = none) : lookupConn (l ++ [(t, c)]) t = some c := by
  induction l with
  | nil => simp [lookupConn]
  | cons a l ih =>
    obtain ⟨t2, c2⟩ := a
    by_cases ht : t2 = t
    · exfalso
      simp [lookupConn, ht] at h
    · have h2 : lookupConn l t = none := by
        simpa [lookupConn, ht] using h
      simp only [List.cons_append, lookupConn, if_neg ht]
      exact ih h2

/-- A failed lookup means the thread id is not among the map's keys. -/
theorem lookupConn_none_not_mem (l : List (Nat × Conn)) (t : Nat)
    (h : lookupConn l t = none) : t ∉ l.map Prod.fst := by
  induction l with
  | nil => simp
  | cons a l ih =>
    obtain ⟨t2, c2⟩ := a
    by_cases ht : t2 = t
    · exfalso
      simp [lookupConn, ht] at h
    · have h2 : lookupConn l t = none := by
        simpa [lookupConn, ht] using h
      simp only [List.map_cons, List.mem_cons]
      push_neg
      exact ⟨fun he => ht he.symm, ih h2⟩

/-- `get_connection` preserves distinctness of the thread keys of the
connection map. -/
theorem get_connection_keys_nodup (m : Memory) (t : Nat)
    (h : (m.connections.map Prod.fst).Nodup) :
    (((get_connection m t).2).connections.map Prod.fst).Nodup := by
  unfold get_connection
  cases hl : lookupConn m.connections t with
  | some c => exact h
  | none =>
    have hm := lookupConn_none_not_mem _ _ hl
    simp only [List.map_append, List.map_cons, List.map_nil]
    rw [List.nodup_append]
    exact ⟨h, List.nodup_singleton t, by simpa using hm⟩

/-- Repeated `get_connection` calls from the same thread return the same
connection handle and leave the object state unchanged. -/
theorem get_connection_idem (m : Memory) (t : Nat) :
    get_connection (get_connection m t).2 t =
      ((get_connection m t).1, (get_connection m t).2) := by
  unfold get_connection
  cases hl : lookupConn m.connections t with
  | some c => simp [hl]
  | none => simp [hl, lookupConn_append_of_none _ _ _ hl]

/-- Claim C7: per-thread connection stability and the map invariant — a
second `get_connection` from the same thread returns the first call's
connection unchanged, and the thread-to-connection map keeps at most one
entry per thread id (distinct keys) across `get_connection`, `store`,
`retrieve`, `batch_store` and `close`. -/
theorem c7_connection_invariants (m : Memory) (t : Nat) (name field : String)
    (data : Fields) (records : List Person)
    (h : (m.connections.map Prod.fst).Nodup) :
    get_connection (get_connection m t).2 t =
      ((get_connection m t).1, (get_connection m t).2) ∧
    (((get_connection m t).2).connections.map Prod.fst).Nodup ∧
    (((storeM m t name data).2).connections.map Prod.fst).Nodup ∧
    (((retrieveM m t name field).2).connections.map Prod.fst).Nodup ∧
    (((batchStoreM m t records).2).connections.map Prod.fst).Nodup ∧
    ((closeM m).connections.map Prod.fst).Nodup := by
  refine ⟨get_connection_idem m t, get_connection_keys_nodup m t h, ?_, ?_, ?_, ?_⟩
  · unfold storeM
    by_cases hn : name = ""
    · rw [if_pos hn]
      exact h
    · rw [if_neg hn]
      exact get_connection_keys_nodup m t h
  · unfold retrieveM
    by_cases hf : field ∉ valid_columns
    · rw [if_pos hf]
      exact h
    · rw [if_neg hf]
      exact get_connection_keys_nodup m t h
  · unfold batchStoreM
    exact get_connection_keys_nodup m t h
  · unfold closeM
    simp

/-- Witness for C7 at a concrete input: the freshly initialized store with
a second thread acquiring a connection. -/
theorem c7_connection_invariants_witness :
    get_connection (get_connection (initMemory 0) 1).2 1 =
      ((get_connection (initMemory 0) 1).1, (get_connection (initMemory 0) 1).2) ∧
    (((get_connection (initMemory 0) 1).2).connections.map Prod.fst).Nodup ∧
    (((storeM (initMemory 0) 1 "Ada Lovelace" {}).2).connections.map Prod.fst).Nodup ∧
    (((retrieveM (initMemory 0) 1 "Ada Lovelace" "occupation").2).connections.map Prod.fst).Nodup ∧
    (((batchStoreM (initMemory 0) 1 [⟨"Alan Turing", {}⟩]).2).connections.map Prod.fst).Nodup ∧
    ((closeM (initMemory 0)).connections.map Prod.fst).Nodup :=
  c7_connection_invariants (initMemory 0) 1 "Ada Lovelace" "occupation" {}
    [⟨"Alan Turing", {}⟩] (by decide)

/-- Claim C6 counterexample: a connection created by `get_connection` for a
thread other than the constructing one receives no configuration pragmas at
all — `get_connection` only calls `sqlite3.connect`; the pragma loop lives
solely in `_initialize_db`, which runs once on the constructing thread's
connection. -/
theorem c6_counterexample :
    ((get_connection (initMemory 0) 1).1).pragmas = [] ∧
    ((get_connection (initMemory 0) 1).1).pragmas ≠ OPTIMIZATION_PRAGMAS := by
  decide

/-- Claim C6 amended: only the connection opened during construction
(`_initialize_db` on the constructing thread) receives the fixed ordered
pragma list (WAL journal mode, NORMAL synchronous, enlarged cache, memory
temp store, plus mmap_size), applied exactly once; a first
`get_connection` call from any other thread creates a connection with no
configuration pragmas applied. -/
theorem c6_amended_pragmas_init_only (t0 t : Nat) (m : Memory)
    (h : lookupConn m.connections t = none) :
    ((get_connection (initMemory t0) t0).1).pragmas = OPTIMIZATION_PRAGMAS ∧
    ((get_connection m t).1).pragmas = [] := by
  constructor
  · have hinit : initMemory t0 = ⟨[(t0, ⟨OPTIMIZATION_PRAGMAS⟩)], []⟩ := by
      unfold initMemory get_connection applyPragmas lookupConn
      simp
    rw [hinit]
    unfold get_connection lookupConn
    simp
  · unfold get_connection
    rw [h]

/-- Witness for C6 amended at a concrete input: thread 0 constructs the
store, thread 1 is fresh. -/
theorem c6_amended_pragmas_init_only_witness :
    ((get_connection (initMemory 0) 0).1).pragmas = OPTIMIZATION_PRAGMAS ∧
    ((get_connection (initMemory 0) 1).1).pragmas = [] :=
  c6_amended_pragmas_init_only 0 1 (initMemory 0) (by decide)

end MemoryManager

namespace MemoryManager

/-! Machinery for claim C5: how `execMany` assigns rowids. -/

theorem foldl_max_init_le (l : Table) : ∀ a : Int, a ≤ l.foldl (fun a r => max a r.rowid) a := by
  induction l with
  | nil => intro a; exact le_refl a
  | cons r l ih => intro a; exact le_trans (le_max_left a r.rowid) (ih (max a r.rowid))

theorem rowid_le_foldl_max (l : Table) (r : Row) :
    ∀ a : Int, r ∈ l → r.rowid ≤ l.foldl (fun a r => max a r.rowid) a := by
  induction l with
  | nil => intro a hr; exact absurd hr (List.not_mem_nil r)
  | cons b l ih =>
    intro a hr
    rcases List.mem_cons.mp hr with he | hm
    · rw [List.foldl_cons]
      subst he
      exact le_trans (le_max_right a r.rowid) (foldl_max_init_le l _)
    · rw [List.foldl_cons]
      exact ih _ hm

theorem foldl_max_le (l : Table) (b : Int) :
    ∀ a : Int, a ≤ b → (∀ r ∈ l, r.rowid ≤ b) →
      l.foldl (fun a r => max a r.rowid) a ≤ b := by
  induction l with
  | nil => intro a ha _; simpa using ha
  | cons r l ih =>
    intro a ha hall
    rw [List.foldl_cons]
    exact ih _ (max_le ha (hall r (List.mem_cons_self r l)))
      (fun r2 h2 => hall r2 (List.mem_cons_of_mem _ h2))

theorem maxRowid_nonneg (st : Table) : 0 ≤ maxRowid st := foldl_max_init_le st 0

theorem rowid_le_maxRowid (st : Table) (r : Row) (hr : r ∈ st) :
    r.rowid ≤ maxRowid st := rowid_le_foldl_max st r 0 hr

theorem maxRowid_le (st : Table) (b : Int) (h0 : 0 ≤ b)
    (hall : ∀ r ∈ st, r.rowid ≤ b) : maxRowid st ≤ b := foldl_max_le st b 0 h0 hall

/-- After one INSERT OR REPLACE the largest rowid in use is the fresh one. -/
theorem maxRowid_insert (st : Table) (q : Row → Bool) (p : Person) :
    maxRowid (st.filter q ++ [mkRow (maxRowid st + 1) p]) = maxRowid st + 1 := by
  apply le_antisymm
  · apply maxRowid_le
    · have := maxRowid_nonneg st
      omega
    · intro r hr
      rcases List.mem_append.mp hr with hf | hs
      · have := rowid_le_maxRowid st r (List.mem_of_mem_filter hf)
        omega
      · rw [List.mem_singleton] at hs
        subst hs
        exact le_refl _
  · exact rowid_le_maxRowid _ _ (List.mem_append_right _ (List.mem_singleton_self _))

/-- Rows freshly inserted by a run of INSERT OR REPLACE statements starting
above rowid `base`, in input order. -/
def rowsFrom (base : Int) : List Person → Table
  | [] => []
  | p :: ps => mkRow (base + 1) p :: rowsFrom (base + 1) ps

/-- Rowids assigned by the same run, in input order. -/
def idsFrom (base : Int) : List Person → List Int
  | [] => []
  | _ :: ps => (base + 1) :: idsFrom (base + 1) ps

/-- Rows of `st` surviving the replacements for all the given records. -/
def filterNames (st : Table) : List Person → Table
  | [] => st
  | p :: ps => filterNames (st.filter (fun row => row.name ≠ p.name)) ps

/-- A row whose name collides with no record survives all the filters. -/
theorem filterNames_append_single (ps : List Person) :
    ∀ (A : Table) (x : Row), (∀ q ∈ ps, x.name ≠ q.name) →
      filterNames (A ++ [x]) ps = filterNames A ps ++ [x] := by
  induction ps with
  | nil => intro A x _; rfl
  | cons q ps ih =>
    intro A x hall
    simp only [filterNames]
    rw [List.filter_append]
    have hx : [x].filter (fun row => row.name ≠ q.name) = [x] := by
      simp [hall q (List.mem_cons_self q ps)]
    rw [hx, ih _ _ (fun q2 hq2 => hall q2 (List.mem_cons_of_mem _ hq2))]

/-- Characterization of `executemany` of INSERT OR REPLACE over records
with pairwise-distinct names: the surviving old rows keep their order and
are followed by the fresh rows, whose rowids are consecutive starting right
above the prior maximum, assigned in input order. -/
theorem execMany_char (records : List Person) : ∀ st : Table,
    (records.map Person.name).Nodup →
    execMany st records =
      (filterNames st records ++ rowsFrom (maxRowid st) records,
       idsFrom (maxRowid st) records) := by
  induction records with
  | nil =>
    intro st _
    simp [execMany, filterNames, rowsFrom, idsFrom]
  | cons p ps ih =>
    intro st h
    rw [List.map_cons, List.nodup_cons] at h
    obtain ⟨hnm, hnd⟩ := h
    have hstep : execMany st (p :: ps) =
        ((execMany (st.filter (fun row => row.name ≠ p.name) ++
            [mkRow (maxRowid st + 1) p]) ps).1,
         (maxRowid st + 1) ::
          (execMany (st.filter (fun row => row.name ≠ p.name) ++
            [mkRow (maxRowid st + 1) p]) ps).2) := rfl
    rw [hstep, ih _ hnd, maxRowid_insert]
    have hsurv : ∀ q ∈ ps, (mkRow (maxRowid st + 1) p).name ≠ q.name := by
      intro q hq he
      apply hnm
      have hpq : p.name = q.name := he
      rw [hpq]
      exact List.mem_map_of_mem Person.name hq
    rw [filterNames_append_single ps _ _ hsurv]
    simp [filterNames, rowsFrom, idsFrom, List.append_assoc]

theorem idsFrom_length (l : List Person) : ∀ base : Int, (idsFrom base l).length = l.length := by
  induction l with
  | nil => intro base; rfl
  | cons p ps ih => intro base; simp [idsFrom, ih]

theorem idsFrom_getLast (l : List Person) : ∀ base : Int, l ≠ [] →
    (idsFrom base l).getLast? = some (base + l.length) := by
  induction l with
  | nil => intro base h; exact absurd rfl h
  | cons p ps ih =>
    intro base _
    cases hps : ps with
    | nil => simp [idsFrom]
    | cons q qs =>
      have := ih (base + 1) (by simp [hps])
      rw [hps] at this
      simp only [idsFrom] at this ⊢
      rw [List.getLast?_cons_cons, this]
      simp only [List.length_cons]
      congr 1
      push_cast
      ring

theorem idsFrom_getElem (l : List Person) : ∀ (base : Int) (i : Nat), i < l.length →
    (idsFrom base l)[i]? = some (base + 1 + i) := by
  induction l with
  | nil => intro base i hi; simp at hi
  | cons p ps ih =>
    intro base i hi
    cases i with
    | zero => simp [idsFrom]
    | succ j =>
      have := ih (base + 1) j (by simpa using hi)
      simp only [idsFrom, List.getElem?_cons_succ, this]
      congr 1
      push_cast
      ring

theorem rowsFrom_mem (l : List Person) : ∀ (base : Int) (i : Nat) (hi : i < l.length),
    mkRow (base + 1 + i) (l.get ⟨i, hi⟩) ∈ rowsFrom base l := by
  induction l with
  | nil => intro base i hi; simp at hi
  | cons p ps ih =>
    intro base i hi
    cases i with
    | zero => simp [rowsFrom]
    | succ j =>
      have hj : j < ps.length := by simpa using hi
      have hmem := ih (base + 1) j hj
      have he : base + 1 + ((j : Int) + 1) = base + 1 + 1 + j := by ring
      simp only [rowsFrom, List.get_cons_succ]
      right
      push_cast
      rw [he]
      exact hmem

theorem range_map_shift (l : List Person) : ∀ base : Int,
    (List.range l.length).map (fun (i : Nat) => base + 1 + (i : Int)) = idsFrom base l := by
  induction l with
  | nil => intro base; rfl
  | cons p ps ih =>
    intro base
    rw [List.length_cons, List.range_succ_eq_map, List.map_cons, List.map_map]
    have hf : ((fun (i : Nat) => base + 1 + (i : Int)) ∘ Nat.succ) =
        (fun (i : Nat) => (base + 1) + 1 + (i : Int)) := by
      funext i
      simp only [Function.comp]
      push_cast
      ring
    rw [hf, ih (base + 1)]
    simp [idsFrom]

/-- Claim C5 counterexample: `batch_store` with two valid records of the
same key "A" (both keys non-empty, hence valid) returns identifiers
[1, 2], but the final table holds a single row with rowid 2 — the first
returned identifier identifies no record at all (the row it pointed at was
deleted by the in-batch replacement), so the i-th returned identifier is
not the identifier of the i-th input record. `batch_store` also has no
batch_size parameter at all (memory_manager.py line 144). -/
theorem c5_counterexample :
    (batch_store [] [⟨"A", {}⟩, ⟨"A", {}⟩]).1 = [1, 2] ∧
    (batch_store [] [⟨"A", {}⟩, ⟨"A", {}⟩]).2 = [⟨2, "A", {}⟩] ∧
    ∀ r ∈ (batch_store [] [⟨"A", {}⟩, ⟨"A", {}⟩]).2, r.rowid ≠ 1 := by
  decide

/-- Claim C5 amended: `batch_store` has no batch_size parameter and does no
chunking; for every sequence of records with pairwise-distinct keys, the
returned identifiers are the rowids assigned to the records in input order
(consecutive from one past the prior maximum rowid), and the i-th record's
row, carrying the i-th returned identifier, is present in the resulting
table. With duplicate keys inside the batch the correspondence fails (see
the counterexample). -/
theorem c5_amended_ids_input_order (st : Table) (records : List Person)
    (hd : (records.map Person.name).Nodup) (i : Nat) (hi : i < records.length) :
    (batch_store st records).1[i]? = some (maxRowid st + 1 + i) ∧
    mkRow (maxRowid st + 1 + i) (records.get ⟨i, hi⟩) ∈ (batch_store st records).2 := by
  have hne : records ≠ [] := by
    intro he
    rw [he] at hi
    simp at hi
  have hchar := execMany_char records st hd
  constructor
  · unfold batch_store
    rw [hchar]
    simp only []
    rw [idsFrom_getLast records (maxRowid st) hne]
    dsimp only
    have hfun : (fun (j : Nat) => maxRowid st + (records.length : Int) -
        (records.length : Int) + 1 + (j : Int)) =
        (fun (j : Nat) => maxRowid st + 1 + (j : Int)) := by
      funext j
      ring
    rw [hfun]
    rw [range_map_shift records (maxRowid st)]
    exact idsFrom_getElem records (maxRowid st) i hi
  · unfold batch_store
    rw [hchar]
    simp only []
    have hmem := rowsFrom_mem records (maxRowid st) i hi
    cases hlast : (idsFrom (maxRowid st) records).getLast? with
    | none => exact List.mem_append_right _ hmem
    | some v => exact List.mem_append_right _ hmem

/-- Witness for C5 amended at a concrete input: two distinct-keyed records
batched into the empty table. -/
theorem c5_amended_ids_input_order_witness :
    (batch_store [] [⟨"Alan Turing", {}⟩, ⟨"Ada Lovelace", {}⟩]).1[1]? =
      some (maxRowid [] + 1 + (1 : Nat)) ∧
    mkRow (maxRowid [] + 1 + (1 : Nat))
        ([⟨"Alan Turing", {}⟩, ⟨"Ada Lovelace", {}⟩].get ⟨1, by decide⟩) ∈
      (batch_store [] [⟨"Alan Turing", {}⟩, ⟨"Ada Lovelace", {}⟩]).2 :=
  c5_amended_ids_input_order [] [⟨"Alan Turing", {}⟩, ⟨"Ada Lovelace", {}⟩]
    (by decide) 1 (by decide)

end MemoryManager

namespace PerfMetrics

/-! Machinery for claim C8: which exceptions each comparison block can
raise, and a sufficient well-formedness condition under which
`print_comparison` completes. -/

/-- A computation is `notBad` when any exception it raises is one of the
three classes swallowed by the blocks' `except` clause. -/
def notBad {α : Type} (x : PyM α) : Prop :=
  ∀ e, x = .error e → (e = .keyError ∨ e = .indexError ∨ e = .zeroDiv)

theorem notBad_ok {α : Type} (v : α) : notBad (.ok v : PyM α) :=
  fun _ he => Except.noConfusion he

theorem notBad_key {α : Type} : notBad (.error .keyError : PyM α) :=
  fun _ he => Or.inl (Except.error.inj he).symm

theorem notBad_index {α : Type} : notBad (.error .indexError : PyM α) :=
  fun _ he => Or.inr (Or.inl (Except.error.inj he).symm)

theorem notBad_zero {α : Type} : notBad (.error .zeroDiv : PyM α) :=
  fun _ he => Or.inr (Or.inr (Except.error.inj he).symm)

theorem notBad_bind {α β : Type} (x : PyM α) (f : α → PyM β)
    (hx : notBad x) (hf : ∀ v, x = .ok v → notBad (f v)) : notBad (x >>= f) := by
  cases x with
  | error e =>
    intro e2 he2
    have he3 : (Except.error e : PyM β) = .error e2 := he2
    have : e = e2 := Except.error.inj he3
    subst this
    exact hx e rfl
  | ok v =>
    intro e2 he2
    exact hf v rfl e2 he2

theorem catchKIZ_of_notBad (r : PyM Unit) (h : notBad r) : catchKIZ r = .ok () := by
  cases r with
  | ok v => cases v; rfl
  | error e =>
    rcases h e rfl with h2 | h2 | h2 <;> subst h2 <;> rfl

theorem forM_notBad (f : J × J → PyM Unit) (l : List (J × J))
    (h : ∀ x ∈ l, notBad (f x)) : notBad (l.forM f) := by
  induction l with
  | nil => exact notBad_ok _
  | cons a l ih =>
    have hb : notBad (f a >>= fun _ => l.forM f) :=
      notBad_bind _ _ (h a (List.mem_cons_self a l))
        (fun v _ => ih (fun x hx => h x (List.mem_cons_of_mem a hx)))
    exact hb

/-- Entry of insertion_rates fit for the loop body: a dict whose "rate"
value, if present, is a number ("batch_size" may be anything or absent —
a missing key raises KeyError, which the block catches). -/
def rateEntryOk : J → Bool
  | .obj kvs =>
    match kvs.find? (fun kv => kv.1 = "rate") with
    | none => true
    | some kv =>
      match kv.2 with
      | .num _ => true
      | _ => false
  | _ => false

/-- Entry of retrieval_rates / concurrent_rates fit for the arithmetic:
a plain number. -/
def numEntry : J → Bool
  | .num _ => true
  | _ => false

/-- The value found for an operation-kind key can be missing (KeyError,
caught) or must be a list of fit entries. -/
def opListOk (entryOk : J → Bool) : Option J → Bool
  | none => true
  | some (.arr xs) => xs.all entryOk
  | some _ => false

/-- A run that the three comparison blocks can process without raising
anything outside KeyError/IndexError/ZeroDivisionError. -/
def wellFormedRun : J → Bool
  | .obj kvs =>
    opListOk rateEntryOk ((kvs.find? (fun kv => kv.1 = "insertion_rates")).map Prod.snd) &&
    opListOk numEntry ((kvs.find? (fun kv => kv.1 = "retrieval_rates")).map Prod.snd) &&
    opListOk numEntry ((kvs.find? (fun kv => kv.1 = "concurrent_rates")).map Prod.snd)
  | _ => false

/-- History states that `print_comparison` tolerates: file absent, file
not JSON-decodable, decoded history with fewer than two entries (of a type
`len()` accepts), or a list of well-formed runs. -/
def tolerable : FileState → Bool
  | .absent => true
  | .undecodable => true
  | .content (.arr xs) => decide (xs.length < 2) || xs.all wellFormedRun
  | .content (.str s) => decide (s.length < 2)
  | .content (.obj kvs) => decide (kvs.length < 2)
  | .content _ => false

theorem pyGetStr_obj_eq (kvs : List (String × J)) (k : String) :
    pyGetStr (.obj kvs) k =
      (match kvs.find? (fun kv => kv.1 = k) with
       | some kv => .ok kv.2
       | none => .error .keyError) := rfl

theorem pyGetStr_obj_notBad (kvs : List (String × J)) (k : String) :
    notBad (pyGetStr (.obj kvs) k) := by
  rw [pyGetStr_obj_eq]
  cases hf : kvs.find? (fun kv => kv.1 = k) with
  | none => exact notBad_key
  | some kv => exact notBad_ok kv.2

theorem pyGetStr_ok_lookup (kvs : List (String × J)) (k : String) (v : J)
    (h : pyGetStr (.obj kvs) k = .ok v) :
    (kvs.find? (fun kv => kv.1 = k)).map Prod.snd = some v := by
  rw [pyGetStr_obj_eq] at h
  cases hf : kvs.find? (fun kv => kv.1 = k) with
  | none =>
    rw [hf] at h
    exact Except.noConfusion h
  | some kv =>
    rw [hf] at h
    have hv : kv.2 = v := Except.ok.inj h
    simp [hv]

theorem getLast?_cons_some {α : Type} (b : α) (l : List α) :
    ∃ a, (b :: l).getLast? = some a := by
  induction l generalizing b with
  | nil => exact ⟨b, rfl⟩
  | cons c l2 ih =>
    obtain ⟨a, ha⟩ := ih c
    exact ⟨a, by rw [List.getLast?_cons_cons, ha]⟩

theorem getLast?_mem {α : Type} (l : List α) (a : α) (h : l.getLast? = some a) :
    a ∈ l := by
  induction l with
  | nil => exact Option.noConfusion h
  | cons b l ih =>
    cases l with
    | nil =>
      have : b = a := by
        have h2 : some b = some a := h
        exact Option.some.inj h2
      rw [this]
      exact List.mem_cons_self a []
    | cons c l2 =>
      rw [List.getLast?_cons_cons] at h
      exact List.mem_cons_of_mem b (ih h)

end PerfMetrics

namespace PerfMetrics

theorem bind_ok_eq {α β : Type} (v : α) (f : α → PyM β) :
    ((.ok v : PyM α) >>= f) = f v := rfl

theorem all_true_mem {α : Type} (p : α → Bool) (l : List α) (h : l.all p = true) :
    ∀ x ∈ l, p x = true := by
  induction l with
  | nil => intro x hx; exact absurd hx (List.not_mem_nil x)
  | cons b l ih =>
    rw [List.all_cons, Bool.and_eq_true] at h
    intro x hx
    rcases List.mem_cons.mp hx with he | hm
    · rw [he]; exact h.1
    · exact ih h.2 x hm

theorem num_of_entry (z : J) (h : numEntry z = true) : ∃ n, z = .num n := by
  cases z with
  | num n => exact ⟨n, rfl⟩
  | null => exact Bool.noConfusion h
  | str s => exact Bool.noConfusion h
  | arr xs => exact Bool.noConfusion h
  | obj kvs => exact Bool.noConfusion h

theorem opListOk_some (entryOk : J → Bool) (v : J)
    (h : opListOk entryOk (some v) = true) :
    ∃ xs, v = .arr xs ∧ ∀ x ∈ xs, entryOk x = true := by
  cases v with
  | arr xs =>
    refine ⟨xs, rfl, ?_⟩
    have h2 : xs.all entryOk = true := h
    exact all_true_mem entryOk xs h2
  | null => exact Bool.noConfusion h
  | num n => exact Bool.noConfusion h
  | str s => exact Bool.noConfusion h
  | obj kvs => exact Bool.noConfusion h

theorem wellFormedRun_obj (kvs : List (String × J)) (h : wellFormedRun (.obj kvs) = true) :
    opListOk rateEntryOk ((kvs.find? (fun kv => kv.1 = "insertion_rates")).map Prod.snd) = true ∧
    opListOk numEntry ((kvs.find? (fun kv => kv.1 = "retrieval_rates")).map Prod.snd) = true ∧
    opListOk numEntry ((kvs.find? (fun kv => kv.1 = "concurrent_rates")).map Prod.snd) = true := by
  have h2 : (opListOk rateEntryOk ((kvs.find? (fun kv => kv.1 = "insertion_rates")).map Prod.snd) &&
      opListOk numEntry ((kvs.find? (fun kv => kv.1 = "retrieval_rates")).map Prod.snd) &&
      opListOk numEntry ((kvs.find? (fun kv => kv.1 = "concurrent_rates")).map Prod.snd)) = true := h
  rw [Bool.and_eq_true, Bool.and_eq_true] at h2
  exact ⟨h2.1.1, h2.1.2, h2.2⟩

theorem rate_num_of_ok (kvs : List (String × J)) (cr : J)
    (ha : rateEntryOk (.obj kvs) = true)
    (h : pyGetStr (.obj kvs) "rate" = .ok cr) : ∃ n, cr = .num n := by
  have hl := pyGetStr_ok_lookup kvs "rate" cr h
  cases hf : kvs.find? (fun kv => kv.1 = "rate") with
  | none =>
    rw [hf] at hl
    exact Option.noConfusion hl
  | some kv =>
    rw [hf] at hl
    have hv : kv.2 = cr := Option.some.inj hl
    have he : rateEntryOk (.obj kvs) =
        (match kvs.find? (fun kv => kv.1 = "rate") with
         | none => true
         | some kv =>
           match kv.2 with
           | .num _ => true
           | _ => false) := rfl
    rw [he, hf] at ha
    have ha2 : (match kv.2 with
        | J.num _ => true
        | _ => false) = true := ha
    cases hn : kv.2 with
    | num n => exact ⟨n, by rw [← hv, hn]⟩
    | null => rw [hn] at ha2; exact Bool.noConfusion ha2
    | str s => rw [hn] at ha2; exact Bool.noConfusion ha2
    | arr xs => rw [hn] at ha2; exact Bool.noConfusion ha2
    | obj kvs2 => rw [hn] at ha2; exact Bool.noConfusion ha2

theorem insertionStep_notBad (a b : J) (ha : rateEntryOk a = true)
    (hb : rateEntryOk b = true) : notBad (insertionStep (a, b)) := by
  cases a with
  | null => exact Bool.noConfusion ha
  | num n => exact Bool.noConfusion ha
  | str s => exact Bool.noConfusion ha
  | arr xs => exact Bool.noConfusion ha
  | obj kva =>
    cases b with
    | null => exact Bool.noConfusion hb
    | num n => exact Bool.noConfusion hb
    | str s => exact Bool.noConfusion hb
    | arr xs => exact Bool.noConfusion hb
    | obj kvb =>
      show notBad (pyGetStr (.obj kva) "batch_size" >>= fun _bs =>
        pyGetStr (.obj kva) "rate" >>= fun cr =>
        pyNum cr >>= fun crN =>
        pyGetStr (.obj kvb) "rate" >>= fun pr =>
        pyNum pr >>= fun prN =>
        if prN = 0 then .error .zeroDiv
        else pyFmtF (.num crN) >>= fun _ => .ok ())
      apply notBad_bind _ _ (pyGetStr_obj_notBad kva "batch_size")
      intro _bs _
      apply notBad_bind _ _ (pyGetStr_obj_notBad kva "rate")
      intro cr hcr
      obtain ⟨nc, hnc⟩ := rate_num_of_ok kva cr ha hcr
      subst hnc
      apply notBad_bind _ _ (notBad_ok nc)
      intro crN _
      apply notBad_bind _ _ (pyGetStr_obj_notBad kvb "rate")
      intro pr hpr
      obtain ⟨np, hnp⟩ := rate_num_of_ok kvb pr hb hpr
      subst hnp
      apply notBad_bind _ _ (notBad_ok np)
      intro prN _
      by_cases hz : prN = 0
      · rw [if_pos hz]
        exact notBad_zero
      · rw [if_neg hz]
        exact notBad_bind _ _ (notBad_ok ()) (fun _ _ => notBad_ok ())

theorem retrievalStep_notBad (a b : J) (ha : numEntry a = true)
    (hb : numEntry b = true) : notBad (retrievalStep (a, b)) := by
  obtain ⟨na, hna⟩ := num_of_entry a ha
  obtain ⟨nb, hnb⟩ := num_of_entry b hb
  subst hna
  subst hnb
  show notBad (pyNum (.num na) >>= fun crN =>
    pyNum (.num nb) >>= fun prN =>
    if prN = 0 then .error .zeroDiv
    else pyFmtF (.num crN) >>= fun _ => .ok ())
  apply notBad_bind _ _ (notBad_ok na)
  intro crN _
  apply notBad_bind _ _ (notBad_ok nb)
  intro prN _
  by_cases hz : prN = 0
  · rw [if_pos hz]
    exact notBad_zero
  · rw [if_neg hz]
    exact notBad_bind _ _ (notBad_ok ()) (fun _ _ => notBad_ok ())

theorem insertionBody_notBad (c p : J) (hc : wellFormedRun c = true)
    (hp : wellFormedRun p = true) : notBad (insertionBody c p) := by
  cases c with
  | null => exact Bool.noConfusion hc
  | num n => exact Bool.noConfusion hc
  | str s => exact Bool.noConfusion hc
  | arr xs => exact Bool.noConfusion hc
  | obj kvc =>
    cases p with
    | null => exact Bool.noConfusion hp
    | num n => exact Bool.noConfusion hp
    | str s => exact Bool.noConfusion hp
    | arr xs => exact Bool.noConfusion hp
    | obj kvp =>
      obtain ⟨hcI, _, _⟩ := wellFormedRun_obj kvc hc
      obtain ⟨hpI, _, _⟩ := wellFormedRun_obj kvp hp
      show notBad (pyGetStr (.obj kvc) "insertion_rates" >>= fun ci =>
        pyGetStr (.obj kvp) "insertion_rates" >>= fun pi2 =>
        pyIter ci >>= fun cl =>
        pyIter pi2 >>= fun pl =>
        (cl.zip pl).forM insertionStep)
      apply notBad_bind _ _ (pyGetStr_obj_notBad kvc "insertion_rates")
      intro ci hci
      apply notBad_bind _ _ (pyGetStr_obj_notBad kvp "insertion_rates")
      intro pi2 hpi
      rw [pyGetStr_ok_lookup _ _ _ hci] at hcI
      obtain ⟨xs, hxe, hxall⟩ := opListOk_some _ _ hcI
      subst hxe
      rw [pyGetStr_ok_lookup _ _ _ hpi] at hpI
      obtain ⟨ys, hye, hyall⟩ := opListOk_some _ _ hpI
      subst hye
      apply notBad_bind _ _ (notBad_ok xs)
      intro cl hcl
      have hcl2 : xs = cl := Except.ok.inj hcl
      subst hcl2
      apply notBad_bind _ _ (notBad_ok ys)
      intro pl hpl
      have hpl2 : ys = pl := Except.ok.inj hpl
      subst hpl2
      apply forM_notBad
      intro ab hab
      obtain ⟨a2, b2⟩ := ab
      have hm := List.of_mem_zip hab
      exact insertionStep_notBad a2 b2 (hxall a2 hm.1) (hyall b2 hm.2)

theorem retrievalBody_notBad (c p : J) (hc : wellFormedRun c = true)
    (hp : wellFormedRun p = true) : notBad (retrievalBody c p) := by
  cases c with
  | null => exact Bool.noConfusion hc
  | num n => exact Bool.noConfusion hc
  | str s => exact Bool.noConfusion hc
  | arr xs => exact Bool.noConfusion hc
  | obj kvc =>
    cases p with
    | null => exact Bool.noConfusion hp
    | num n => exact Bool.noConfusion hp
    | str s => exact Bool.noConfusion hp
    | arr xs => exact Bool.noConfusion hp
    | obj kvp =>
      obtain ⟨_, hcR, _⟩ := wellFormedRun_obj kvc hc
      obtain ⟨_, hpR, _⟩ := wellFormedRun_obj kvp hp
      show notBad (pyGetStr (.obj kvc) "retrieval_rates" >>= fun ci =>
        pyGetStr (.obj kvp) "retrieval_rates" >>= fun pi2 =>
        pyIter ci >>= fun cl =>
        pyIter pi2 >>= fun pl =>
        (cl.zip pl).forM retrievalStep)
      apply notBad_bind _ _ (pyGetStr_obj_notBad kvc "retrieval_rates")
      intro ci hci
      apply notBad_bind _ _ (pyGetStr_obj_notBad kvp "retrieval_rates")
      intro pi2 hpi
      rw [pyGetStr_ok_lookup _ _ _ hci] at hcR
      obtain ⟨xs, hxe, hxall⟩ := opListOk_some _ _ hcR
      subst hxe
      rw [pyGetStr_ok_lookup _ _ _ hpi] at hpR
      obtain ⟨ys, hye, hyall⟩ := opListOk_some _ _ hpR
      subst hye
      apply notBad_bind _ _ (notBad_ok xs)
      intro cl hcl
      have hcl2 : xs = cl := Except.ok.inj hcl
      subst hcl2
      apply notBad_bind _ _ (notBad_ok ys)
      intro pl hpl
      have hpl2 : ys = pl := Except.ok.inj hpl
      subst hpl2
      apply forM_notBad
      intro ab hab
      obtain ⟨a2, b2⟩ := ab
      have hm := List.of_mem_zip hab
      exact retrievalStep_notBad a2 b2 (hxall a2 hm.1) (hyall b2 hm.2)

theorem pyLast_arr (xs : List J) (z : J) (h : xs.getLast? = some z) :
    pyLast (.arr xs) = .ok z := by
  have he : pyLast (.arr xs) =
      (match xs.getLast? with
       | some x => .ok x
       | none => .error .indexError) := rfl
  rw [he, h]

theorem concurrentBody_notBad (c p : J) (hc : wellFormedRun c = true)
    (hp : wellFormedRun p = true) : notBad (concurrentBody c p) := by
  cases c with
  | null => exact Bool.noConfusion hc
  | num n => exact Bool.noConfusion hc
  | str s => exact Bool.noConfusion hc
  | arr xs => exact Bool.noConfusion hc
  | obj kvc =>
    cases p with
    | null => exact Bool.noConfusion hp
    | num n => exact Bool.noConfusion hp
    | str s => exact Bool.noConfusion hp
    | arr xs => exact Bool.noConfusion hp
    | obj kvp =>
      obtain ⟨_, _, hcC⟩ := wellFormedRun_obj kvc hc
      obtain ⟨_, _, hpC⟩ := wellFormedRun_obj kvp hp
      show notBad (pyGetStr (.obj kvc) "concurrent_rates" >>= fun cc =>
        pyGetStr (.obj kvp) "concurrent_rates" >>= fun pc =>
        if pyTruthy cc ∧ pyTruthy pc then
          (pyLast cc >>= fun cl =>
           pyLast pc >>= fun pl =>
           pyNum cl >>= fun clN =>
           pyNum pl >>= fun plN =>
           if plN = 0 then .error .zeroDiv
           else pyFmtF (.num clN) >>= fun _ => .ok ())
        else .ok ())
      apply notBad_bind _ _ (pyGetStr_obj_notBad kvc "concurrent_rates")
      intro cc hcc
      apply notBad_bind _ _ (pyGetStr_obj_notBad kvp "concurrent_rates")
      intro pc hpc
      rw [pyGetStr_ok_lookup _ _ _ hcc] at hcC
      obtain ⟨zs, hze, hzall⟩ := opListOk_some _ _ hcC
      subst hze
      rw [pyGetStr_ok_lookup _ _ _ hpc] at hpC
      obtain ⟨ws, hwe, hwall⟩ := opListOk_some _ _ hpC
      subst hwe
      by_cases ht : pyTruthy (.arr zs) ∧ pyTruthy (.arr ws)
      · rw [if_pos ht]
        cases zs with
        | nil => exact absurd ht.1 (by simp [pyTruthy])
        | cons z0 zt =>
          cases ws with
          | nil => exact absurd ht.2 (by simp [pyTruthy])
          | cons w0 wt =>
            obtain ⟨zl, hzl⟩ := getLast?_cons_some z0 zt
            obtain ⟨wl, hwl⟩ := getLast?_cons_some w0 wt
            rw [pyLast_arr _ _ hzl, bind_ok_eq, pyLast_arr _ _ hwl, bind_ok_eq]
            obtain ⟨nz, hnz⟩ := num_of_entry zl (hzall zl (getLast?_mem _ _ hzl))
            obtain ⟨nw, hnw⟩ := num_of_entry wl (hwall wl (getLast?_mem _ _ hwl))
            subst hnz
            subst hnw
            apply notBad_bind _ _ (notBad_ok nz)
            intro clN _
            apply notBad_bind _ _ (notBad_ok nw)
            intro plN _
            by_cases hz : plN = 0
            · rw [if_pos hz]
              exact notBad_zero
            · rw [if_neg hz]
              exact notBad_bind _ _ (notBad_ok ()) (fun _ _ => notBad_ok ())
      · rw [if_neg ht]
        exact notBad_ok ()

end PerfMetrics

namespace PerfMetrics

/-- Claim C8 counterexample: a history file containing two runs whose
`insertion_rates` entries are plain numbers (as `log_metric` without a
batch_size records them) makes `print_comparison` raise TypeError —
`curr['batch_size']` subscripts a number — because the blocks catch only
KeyError, IndexError and ZeroDivisionError. The routine is therefore not
"never failing" on malformed history. -/
theorem c8_counterexample :
    print_comparison (.content (.arr
      [.obj [("insertion_rates", .arr [.num 5])],
       .obj [("insertion_rates", .arr [.num 7])]])) = .error .typeError := rfl

theorem pyLen_str (s : String) : pyLen (.str s) = .ok s.length := rfl

theorem pyLen_arr (xs : List J) : pyLen (.arr xs) = .ok xs.length := rfl

theorem pyLen_obj (kvs : List (String × J)) : pyLen (.obj kvs) = .ok kvs.length := rfl

theorem pyPenult_arr (xs : List J) (hge : xs.length ≥ 2)
    (hlt : xs.length - 2 < xs.length) :
    pyPenult (.arr xs) = .ok (xs.get ⟨xs.length - 2, hlt⟩) := by
  have he : pyPenult (.arr xs) =
      (if h : xs.length ≥ 2 then (.ok (xs.get ⟨xs.length - 2, by omega⟩) : PyM J)
       else .error .indexError) := rfl
  rw [he, dif_pos hge]

/-- Claim C8 amended: `print_comparison` completes without raising when
the history file is absent, is not JSON-decodable, holds fewer than two
entries, or holds a list of well-formed runs (dicts whose per-operation
values, when present, are lists of suitably typed entries) — in
particular missing keys, missing entries and zero previous rates are
caught. It is not tolerant of arbitrary malformed history: type-malformed
runs or entries raise TypeError/ValueError out of the routine (see the
counterexample). -/
theorem c8_amended_tolerated_histories (fs : FileState) (h : tolerable fs = true) :
    print_comparison fs = .ok () := by
  cases fs with
  | absent => rfl
  | undecodable => rfl
  | content j =>
    cases j with
    | null => exact Bool.noConfusion h
    | num n => exact Bool.noConfusion h
    | str s =>
      have hs : s.length < 2 := of_decide_eq_true h
      unfold print_comparison
      simp only [pyLen_str, bind_ok_eq]
      rw [if_pos hs]
    | obj kvs =>
      have hs : kvs.length < 2 := of_decide_eq_true h
      unfold print_comparison
      simp only [pyLen_obj, bind_ok_eq]
      rw [if_pos hs]
    | arr xs =>
      have h2 : (decide (xs.length < 2) || xs.all wellFormedRun) = true := h
      by_cases hl : xs.length < 2
      · unfold print_comparison
        simp only [pyLen_arr, bind_ok_eq]
        rw [if_pos hl]
      · have hallT : xs.all wellFormedRun = true := by
          rw [Bool.or_eq_true] at h2
          rcases h2 with hlen | hall
          · exact absurd (of_decide_eq_true hlen) hl
          · exact hall
        have hge : 2 ≤ xs.length := Nat.le_of_not_lt hl
        cases hxs : xs with
        | nil =>
          rw [hxs] at hge
          exact absurd hge (by decide)
        | cons b t =>
          subst hxs
          obtain ⟨cur, hgl⟩ := getLast?_cons_some b t
          have hcur : wellFormedRun cur = true :=
            all_true_mem _ _ hallT cur (getLast?_mem _ _ hgl)
          have hlt : (b :: t).length - 2 < (b :: t).length := by
            simp only [List.length_cons]
            omega
          have hprev : wellFormedRun ((b :: t).get ⟨(b :: t).length - 2, hlt⟩) = true :=
            all_true_mem _ _ hallT _ (List.get_mem _ _ _)
          unfold print_comparison
          simp only [pyLen_arr, bind_ok_eq]
          rw [if_neg hl]
          rw [pyLast_arr _ _ hgl]
          simp only [bind_ok_eq]
          rw [pyPenult_arr _ hge hlt]
          simp only [bind_ok_eq]
          rw [catchKIZ_of_notBad _ (insertionBody_notBad _ _ hcur hprev)]
          simp only [bind_ok_eq]
          rw [catchKIZ_of_notBad _ (retrievalBody_notBad _ _ hcur hprev)]
          simp only [bind_ok_eq]
          exact catchKIZ_of_notBad _ (concurrentBody_notBad _ _ hcur hprev)

/-- Witness for C8 amended at a concrete input: a two-run history with
well-formed entries, a zero previous insertion rate (ZeroDivisionError,
caught) and an empty previous concurrent list completes without raising. -/
theorem c8_amended_tolerated_histories_witness :
    tolerable (.content (.arr
      [.obj [("insertion_rates", .arr [.obj [("batch_size", .num 10), ("rate", .num 0)]]),
             ("retrieval_rates", .arr [.num 4]),
             ("concurrent_rates", .arr [])],
       .obj [("insertion_rates", .arr [.obj [("batch_size", .num 10), ("rate", .num 3)]]),
             ("retrieval_rates", .arr [.num 5]),
             ("concurrent_rates", .arr [.num 2])]])) = true ∧
    print_comparison (.content (.arr
      [.obj [("insertion_rates", .arr [.obj [("batch_size", .num 10), ("rate", .num 0)]]),
             ("retrieval_rates", .arr [.num 4]),
             ("concurrent_rates", .arr [])],
       .obj [("insertion_rates", .arr [.obj [("batch_size", .num 10), ("rate", .num 3)]]),
             ("retrieval_rates", .arr [.num 5]),
             ("concurrent_rates", .arr [.num 2])]])) = .ok () :=
  ⟨rfl, c8_amended_tolerated_histories _ rfl⟩

end PerfMetrics
